import Mathlib

/-!
# Verification of the bonsaidb transactional document-store core

This file gives a shallow embedding, in Lean 4, of the parts of the
bonsaidb repository that the specification talks about:

* the serializable `Range`/`Bound` key-range model
  (`crates/bonsaidb-core/src/connection.rs`);
* database-name validation, database creation/open/delete and the
  storage-identifier bootstrap (`crates/bonsaidb-local/src/storage.rs`);
* the compaction target fan-out (`crates/bonsaidb-local/src/tasks/compactor.rs`);
* the transaction data model (`crates/bonsaidb-core/src/transaction.rs`)
  and the provided `Connection::insert/update/delete` methods.

Rust `Result` becomes `Except`, `HashMap` becomes an association list
queried by key, `u64` becomes `Nat` (with explicit `2 ^ 64` bounds where
overflow matters), and panics (`unreachable!`, out-of-bounds indexing,
`expect`) become an explicit `none`/`panic` constructor.
-/

namespace BonsaiDb

/-! ## Range and Bound (connection.rs)

`Bound<T>` and `Range<T>` are the serializable mirror of the standard
range types.  Serialization goes through the `Key` trait, which we
represent by explicit `encode`/`decode` functions on byte lists. -/

/-- A range bound that can be serialized (`connection.rs`, enum `Bound`). -/
inductive Bound (α : Type) where
  | unbounded : Bound α
  | included (value : α) : Bound α
  | excluded (value : α) : Bound α
deriving Repr, DecidableEq

/-- A range type that can represent all std range types and be serialized
(`connection.rs`, struct `Range`). -/
structure Range (α : Type) where
  start : Bound α
  «end» : Bound α
deriving Repr, DecidableEq

/-- `Bound::as_big_endian_bytes`: serializes the contained value, keeping
the bound kind. -/
def Bound.as_big_endian_bytes (encode : α → Except ε (List Nat)) :
    Bound α → Except ε (Bound (List Nat))
  | .unbounded => .ok .unbounded
  | .included value => (encode value).map .included
  | .excluded value => (encode value).map .excluded

/-- `Bound::deserialize`: deserializes the contained value, keeping the
bound kind. -/
def Bound.deserialize (decode : List Nat → Except ε α) :
    Bound (List Nat) → Except ε (Bound α)
  | .unbounded => .ok .unbounded
  | .included value => (decode value).map .included
  | .excluded value => (decode value).map .excluded

/-- `Range::as_big_endian_bytes`: serializes both bounds. -/
def Range.as_big_endian_bytes (encode : α → Except ε (List Nat))
    (r : Range α) : Except ε (Range (List Nat)) := do
  let s ← r.start.as_big_endian_bytes encode
  let e ← r.«end».as_big_endian_bytes encode
  pure ⟨s, e⟩

/-- `Range::deserialize`, exactly as in the source: both the `start` and
the `end` field of the result are produced by deserializing `self.start`. -/
def Range.deserialize (decode : List Nat → Except ε α)
    (r : Range (List Nat)) : Except ε (Range α) := do
  let s ← r.start.deserialize decode
  let e ← r.start.deserialize decode
  pure ⟨s, e⟩

/-- Big-endian byte encoding of a `u64` key, the order-preserving codec
the `Key` trait provides for integers (8 bytes, most significant first). -/
def u64ToBigEndianBytes (n : Nat) : List Nat :=
  (List.range 8).map fun i => n / 2 ^ (8 * (7 - i)) % 256

/-- Decoding of a `u64` key from 8 big-endian bytes; any other length is
a deserialization error. -/
def u64FromBigEndianBytes (bytes : List Nat) : Except Unit Nat :=
  if bytes.length = 8 then
    .ok (bytes.foldl (fun acc b => acc * 256 + b) 0)
  else
    .error ()

/-- The `u64` encoder packaged for `Range.as_big_endian_bytes`. -/
def u64Encode (n : Nat) : Except Unit (List Nat) :=
  .ok (u64ToBigEndianBytes n)

/-- Serialize a `u64` range and deserialize it back, the round trip the
specification says is the identity. -/
def u64RangeRoundTrip (r : Range Nat) : Except Unit (Range Nat) := do
  let wire ← r.as_big_endian_bytes u64Encode
  wire.deserialize u64FromBigEndianBytes

/-- C1: `Range::deserialize` is not the inverse of
`Range::as_big_endian_bytes`: on the range `[Unbounded, Included 5)` of
`u64` keys the round trip returns `[Unbounded, Unbounded)` — the end
bound is recovered from the serialized *start* bound, so the original
range is lost.  (The codec itself round-trips: `Included 5` survives when
it sits in the start position.) -/
theorem C1_range_deserialize_reads_start_twice :
    u64RangeRoundTrip ⟨Bound.unbounded, Bound.included 5⟩
        = Except.ok ⟨Bound.unbounded, Bound.unbounded⟩
      ∧ (⟨Bound.unbounded, Bound.unbounded⟩ : Range Nat)
        ≠ ⟨Bound.unbounded, Bound.included 5⟩
      ∧ u64RangeRoundTrip ⟨Bound.included 5, Bound.unbounded⟩
        = Except.ok ⟨Bound.included 5, Bound.included 5⟩ := by
  refine ⟨by rfl, by decide, by rfl⟩

/-! ## Database-name validation (storage.rs, `Storage::validate_name`) -/

/-- The error kinds of `bonsaidb_core::Error` that the storage layer
surfaces in the code under study. -/
inductive CoreError where
  | invalidDatabaseName (name : String)
  | schemaNotRegistered (schema : String)
  | databaseNameAlreadyTaken (name : String)
  | databaseNotFound (name : String)
  | schemaMismatch (databaseName : String) (schema : String) (storedSchema : String)
deriving Repr, DecidableEq

/-- The per-character closure inside `Storage::validate_name`: a
character is allowed when it is ASCII alphanumeric, or it is `'_'` at
index 0, or it is `'.'` or `'-'` at an index greater than 0.  (Lean's
`Char.isAlphanum` tests exactly the ASCII ranges, like Rust's
`char::is_ascii_alphanumeric`.) -/
def validNameChar (p : Nat × Char) : Bool :=
  p.2.isAlphanum || (p.1 == 0 && p.2 == '_')
    || (decide (0 < p.1) && (p.2 == '.' || p.2 == '-'))

/-- `Storage::validate_name`: accepts iff every indexed character passes
`validNameChar`; otherwise fails with `Error::InvalidDatabaseName`. -/
def validate_name (name : String) : Except CoreError Unit :=
  if name.toList.enum.all validNameChar then
    .ok ()
  else
    .error (.invalidDatabaseName name)

/-- The specification's rule for the first character of a database name:
alphanumeric or underscore. -/
def specFirstCharOK (c : Char) : Bool :=
  c.isAlphanum || c == '_'

/-- The specification's rule for every subsequent character of a
database name: alphanumeric, `'.'`, or `'-'`. -/
def specRestCharOK (c : Char) : Bool :=
  c.isAlphanum || (c == '.' || c == '-')

/-- The specification's character grammar for database names, phrased as
the spec phrases it: a first-character rule and a rule for the rest. -/
def specNameGrammar (name : String) : Bool :=
  match name.toList with
  | [] => true
  | c :: rest => specFirstCharOK c && rest.all specRestCharOK

/-- The acceptance predicate claimed by the specification: the character
grammar *and* a length of at most 64 bytes. -/
def specClaimedNameOK (name : String) : Bool :=
  specNameGrammar name && decide (name.utf8ByteSize ≤ 64)

/-- A name of sixty-five `'a'` characters: 65 bytes long, so past the
specification's 64-byte limit, yet made only of allowed characters. -/
def sixtyFiveAs : String := String.mk (List.replicate 65 'a')

theorem validNameChar_zero (c : Char) :
    validNameChar (0, c) = specFirstCharOK c := by
  simp [validNameChar, specFirstCharOK]

theorem validNameChar_pos (n : Nat) (c : Char) (hn : 0 < n) :
    validNameChar (n, c) = specRestCharOK c := by
  have h0 : (n == 0) = false := by
    simp [Nat.pos_iff_ne_zero.mp hn]
  have h1 : decide (0 < n) = true := decide_eq_true hn
  simp [validNameChar, specRestCharOK, h0, h1]

theorem enumFrom_all_validNameChar (l : List Char) (n : Nat) (hn : 0 < n) :
    (l.enumFrom n).all validNameChar = l.all specRestCharOK := by
  induction l generalizing n with
  | nil => rfl
  | cons c rest ih =>
    rw [List.enumFrom_cons, List.all_cons, List.all_cons,
      validNameChar_pos n c hn, ih (n + 1) (Nat.succ_pos n)]

theorem enum_all_validNameChar (name : String) :
    name.toList.enum.all validNameChar = specNameGrammar name := by
  unfold specNameGrammar
  cases h : name.toList with
  | nil => rfl
  | cons c rest =>
    rw [List.enum_cons, List.all_cons, validNameChar_zero,
      enumFrom_all_validNameChar rest 1 Nat.one_pos]

/-- C2 (counterexample): the claimed acceptance rule is violated by a
65-byte name of `'a'`s — `Storage::validate_name` accepts it although
the claim, which includes the 64-byte limit, says it must be rejected.
The source performs no length check at all. -/
theorem C2_counterexample_no_length_limit :
    validate_name sixtyFiveAs = Except.ok ()
      ∧ specClaimedNameOK sixtyFiveAs = false := by
  constructor
  · rfl
  · decide

theorem validate_name_eq_grammar (name : String) :
    validate_name name =
      if specNameGrammar name then Except.ok ()
      else Except.error (CoreError.invalidDatabaseName name) := by
  unfold validate_name
  rw [enum_all_validNameChar]

/-- C2 (amended): `Storage::validate_name` accepts a name iff its first
character is (ASCII) alphanumeric or `'_'` and every subsequent
character is alphanumeric, `'.'`, or `'-'` — with no length limit — and
every rejected name fails with `Error::InvalidDatabaseName`. -/
theorem C2_validate_name_characterization (name : String) :
    validate_name name =
      if specNameGrammar name then Except.ok ()
      else Except.error (CoreError.invalidDatabaseName name) :=
  validate_name_eq_grammar name

/-! ## Storage state (storage.rs)

`Storage`'s shared data is a handful of maps: registered schemas,
`available_databases` (name → schema name), `open_roots` (name →
database context), plus the admin database's `database` collection and
the on-disk directories.  Maps become association lists queried by key;
the set-like ones become lists of names. -/

/-- Key lookup in an association list (the behavior of `HashMap::get`). -/
def lookupAssoc [DecidableEq κ] (l : List (κ × α)) (k : κ) : Option α :=
  match l with
  | [] => none
  | (k', v) :: rest => if k' = k then some v else lookupAssoc rest k

/-- Key insertion in an association list, replacing an existing binding
(the behavior of `HashMap::insert`). -/
def insertAssoc [DecidableEq κ] (l : List (κ × α)) (k : κ) (v : α) : List (κ × α) :=
  match l with
  | [] => [(k, v)]
  | (k', v') :: rest =>
    if k' = k then (k, v) :: rest else (k', v') :: insertAssoc rest k v

/-- Key removal from an association list (the behavior of
`HashMap::remove`: afterwards the key has no binding). -/
def removeAssoc [DecidableEq κ] (l : List (κ × α)) (k : κ) : List (κ × α) :=
  l.filter fun p => decide (p.1 ≠ k)

/-- The parts of `Storage`'s shared `Data` that the claims touch.
`admin_databases` is the admin database's `database` collection: one
`(name, schema)` record per created database.  `disk_dirs` is the set of
database directories that exist under the storage root. -/
structure StorageState where
  schemas : List String
  available_databases : List (String × String)
  open_roots : List String
  admin_databases : List (String × String)
  disk_dirs : List String
deriving Repr, DecidableEq

/-- Rust's `str::to_ascii_lowercase` (Lean's `Char.toLower` lowers
exactly the ASCII uppercase range). -/
def asciiLower (s : String) : String :=
  String.mk (s.toList.map Char.toLower)

/-- Modelled from the spec: the admin database's `database::ByName` view
(the admin collection records `name → schema`, "case folded to lowercase
for uniqueness checks"); a query with key `key` returns the records
whose lowercased name equals `key`.  The view implementation itself is
not under `src/`; `storage.rs` always queries it with
`name.to_ascii_lowercase()`. -/
def adminByName (records : List (String × String)) (key : String) :
    List (String × String) :=
  records.filter fun r => asciiLower r.1 == key

/-- `Storage::open_roots`: returns the cached context when the database
is already open, otherwise opens it and caches it.  Only the cache-state
effect is modelled. -/
def openRoots (s : StorageState) (name : String) : StorageState :=
  if name ∈ s.open_roots then s
  else { s with open_roots := s.open_roots ++ [name] }

/-- `Storage::create_database_with_schema`: validates the name, requires
the schema to be registered, rejects (or tolerates, with
`only_if_needed`) an existing database with the same lowercased name,
and otherwise pushes an admin record and registers the database in
`available_databases`. -/
def create_database_with_schema (s : StorageState) (name : String)
    (schema : String) (only_if_needed : Bool) :
    StorageState × Except CoreError Unit :=
  match validate_name name with
  | .error e => (s, .error e)
  | .ok _ =>
    if schema ∈ s.schemas then
      if (adminByName s.admin_databases (asciiLower name)).isEmpty then
        ({ s with
            admin_databases := s.admin_databases ++ [(name, schema)],
            available_databases := insertAssoc s.available_databases name schema },
          .ok ())
      else if only_if_needed then
        (s, .ok ())
      else
        (s, .error (.databaseNameAlreadyTaken name))
    else
      (s, .error (.schemaNotRegistered schema))

/-- `StorageConnection::database::<DB>` for `Storage`: looks the exact
name up in `available_databases`; on a schema match it opens the roots,
otherwise it fails with `SchemaMismatch`, and with `DatabaseNotFound`
when the name is absent.  `schemaName` stands for `DB::schema_name()`. -/
def Storage.database (s : StorageState) (name : String) (schemaName : String) :
    StorageState × Except CoreError Unit :=
  match lookupAssoc s.available_databases name with
  | some stored_schema =>
    if stored_schema = schemaName then
      (openRoots s name, .ok ())
    else
      (s, .error (.schemaMismatch name schemaName stored_schema))
  | none => (s, .error (.databaseNotFound name))

/-- `Storage::delete_database`: removes the name from
`available_databases` and `open_roots` and deletes the database's
directory when it exists, and only then looks for the admin record by
lowercased name — deleting it on success and failing with
`DatabaseNotFound` when it is absent. -/
def delete_database (s : StorageState) (name : String) :
    StorageState × Except CoreError Unit :=
  let available' := removeAssoc s.available_databases name
  let open_roots' := s.open_roots.filter fun n => n != name
  let disk_dirs' :=
    if name ∈ s.disk_dirs then s.disk_dirs.filter fun n => n != name
    else s.disk_dirs
  match adminByName s.admin_databases (asciiLower name) with
  | [] =>
    (⟨s.schemas, available', open_roots', s.admin_databases, disk_dirs'⟩,
      .error (.databaseNotFound name))
  | record :: _ =>
    (⟨s.schemas, available', open_roots', s.admin_databases.erase record,
        disk_dirs'⟩,
      .ok ())

/-! ## Storage identifier bootstrap (storage.rs, `lookup_or_create_id`) -/

/-- Rust's `u64::from_str`: an optional leading `'+'`, then at least one
ASCII digit, rejecting values that overflow 64 bits. -/
def parseU64 (s : String) : Option Nat :=
  let digits :=
    match s.toList with
    | '+' :: rest => rest
    | l => l
  if digits.isEmpty then none
  else if digits.all Char.isDigit then
    let n := digits.foldl (fun acc c => acc * 10 + (c.toNat - 48)) 0
    if n < 2 ^ 64 then some n else none
  else none

/-- `Storage::lookup_or_create_id`.  Inputs: the configuration override,
the current content of the `server-id` file, and the random `u64` that
`thread_rng().gen()` would produce.  Output: the chosen id and the file
content afterwards, or `none` for the `expect` panic on a file that does
not parse. -/
def lookup_or_create_id (unique_id : Option Nat)
    (server_id_file : Option String) (random_id : Nat) :
    Option (Nat × Option String) :=
  match unique_id with
  | some id => some (id, server_id_file)
  | none =>
    match server_id_file with
    | some content =>
      match parseU64 content with
      | some existing_id => some (existing_id, some content)
      | none => none
    | none => some (random_id, some (Nat.repr random_id))

/-! ## Association-list lemmas -/

theorem lookupAssoc_insertAssoc_self [DecidableEq κ] (l : List (κ × α)) (k : κ) (v : α) :
    lookupAssoc (insertAssoc l k v) k = some v := by
  induction l with
  | nil => simp [insertAssoc, lookupAssoc]
  | cons p rest ih =>
    obtain ⟨k', v'⟩ := p
    by_cases h : k' = k
    · simp [insertAssoc, lookupAssoc, h]
    · simp [insertAssoc, lookupAssoc, h, ih]

theorem lookupAssoc_removeAssoc_self [DecidableEq κ] (l : List (κ × α)) (k : κ) :
    lookupAssoc (removeAssoc l k) k = none := by
  induction l with
  | nil => rfl
  | cons p rest ih =>
    obtain ⟨k', v'⟩ := p
    by_cases h : k' = k
    · simpa [removeAssoc, List.filter_cons, h] using ih
    · simpa [removeAssoc, List.filter_cons, lookupAssoc, h] using ih

theorem not_mem_filter_bne_self (l : List String) (k : String) :
    k ∉ l.filter fun n => n != k := by
  intro hmem
  have h := List.of_mem_filter hmem
  simp at h

/-! ## Claims about the storage operations -/

/-- C5: `create_database_with_schema` fails with `InvalidDatabaseName`
on a grammar-violating name, with `SchemaNotRegistered` on an
unregistered schema; with an existing database of the same lowercased
name it returns `Ok` without change under `only_if_needed` and fails
with `DatabaseNameAlreadyTaken` otherwise; and in the remaining case it
records the `(name, schema)` pair both as an admin record and in
`available_databases`. -/
theorem C5_create_database_cases (s : StorageState) (name schema : String)
    (only_if_needed : Bool) :
    (specNameGrammar name = false →
        create_database_with_schema s name schema only_if_needed
          = (s, .error (.invalidDatabaseName name)))
    ∧ (specNameGrammar name = true → schema ∉ s.schemas →
        create_database_with_schema s name schema only_if_needed
          = (s, .error (.schemaNotRegistered schema)))
    ∧ (specNameGrammar name = true → schema ∈ s.schemas →
        adminByName s.admin_databases (asciiLower name) ≠ [] →
        create_database_with_schema s name schema true = (s, .ok ()))
    ∧ (specNameGrammar name = true → schema ∈ s.schemas →
        adminByName s.admin_databases (asciiLower name) ≠ [] →
        create_database_with_schema s name schema false
          = (s, .error (.databaseNameAlreadyTaken name)))
    ∧ (specNameGrammar name = true → schema ∈ s.schemas →
        adminByName s.admin_databases (asciiLower name) = [] →
        (create_database_with_schema s name schema only_if_needed).2 = .ok ()
        ∧ (name, schema) ∈
            (create_database_with_schema s name schema only_if_needed).1.admin_databases
        ∧ lookupAssoc
            (create_database_with_schema s name schema only_if_needed).1.available_databases
            name = some schema) := by
  refine ⟨?_, ?_, ?_, ?_, ?_⟩
  · intro hg
    simp [create_database_with_schema, validate_name_eq_grammar, hg]
  · intro hg hs
    simp [create_database_with_schema, validate_name_eq_grammar, hg, hs]
  · intro hg hs hq
    simp [create_database_with_schema, validate_name_eq_grammar, hg, hs,
      List.isEmpty_iff, hq]
  · intro hg hs hq
    simp [create_database_with_schema, validate_name_eq_grammar, hg, hs,
      List.isEmpty_iff, hq]
  · intro hg hs hq
    simp [create_database_with_schema, validate_name_eq_grammar, hg, hs,
      List.isEmpty_iff, hq, lookupAssoc_insertAssoc_self]

theorem C5_witness :
    create_database_with_schema ⟨["sch"], [], [], [], []⟩ "-bad" "sch" true
      = (⟨["sch"], [], [], [], []⟩, .error (.invalidDatabaseName "-bad"))
    ∧ create_database_with_schema ⟨[], [], [], [], []⟩ "db" "sch" true
      = (⟨[], [], [], [], []⟩, .error (.schemaNotRegistered "sch"))
    ∧ create_database_with_schema ⟨["sch"], [("Db", "sch")], [], [("Db", "sch")], []⟩
        "dB" "sch" true
      = (⟨["sch"], [("Db", "sch")], [], [("Db", "sch")], []⟩, .ok ())
    ∧ create_database_with_schema ⟨["sch"], [("Db", "sch")], [], [("Db", "sch")], []⟩
        "dB" "sch" false
      = (⟨["sch"], [("Db", "sch")], [], [("Db", "sch")], []⟩,
          .error (.databaseNameAlreadyTaken "dB"))
    ∧ ((create_database_with_schema ⟨["sch"], [], [], [], []⟩ "db" "sch" false).2
          = .ok ()
        ∧ ("db", "sch") ∈
            (create_database_with_schema ⟨["sch"], [], [], [], []⟩ "db" "sch"
              false).1.admin_databases
        ∧ lookupAssoc
            (create_database_with_schema ⟨["sch"], [], [], [], []⟩ "db" "sch"
              false).1.available_databases "db" = some "sch") :=
  ⟨(C5_create_database_cases ⟨["sch"], [], [], [], []⟩ "-bad" "sch" true).1
      (by decide),
    (C5_create_database_cases ⟨[], [], [], [], []⟩ "db" "sch" true).2.1
      (by decide) (by decide),
    (C5_create_database_cases ⟨["sch"], [("Db", "sch")], [], [("Db", "sch")], []⟩
        "dB" "sch" true).2.2.1 (by decide) (by decide) (by decide),
    (C5_create_database_cases ⟨["sch"], [("Db", "sch")], [], [("Db", "sch")], []⟩
        "dB" "sch" false).2.2.2.1 (by decide) (by decide) (by decide),
    (C5_create_database_cases ⟨["sch"], [], [], [], []⟩ "db" "sch" false).2.2.2.2
      (by decide) (by decide) (by decide)⟩

/-- C6: opening a database succeeds exactly when the name is registered
in `available_databases` with the requested schema; a different stored
schema gives `SchemaMismatch` and an absent name gives
`DatabaseNotFound`, both without touching the state. -/
theorem C6_database_open (s : StorageState) (name schemaName : String) :
    ((Storage.database s name schemaName).2 = .ok () ↔
        lookupAssoc s.available_databases name = some schemaName)
    ∧ (∀ stored, lookupAssoc s.available_databases name = some stored →
        stored ≠ schemaName →
        Storage.database s name schemaName
          = (s, .error (.schemaMismatch name schemaName stored)))
    ∧ (lookupAssoc s.available_databases name = none →
        Storage.database s name schemaName
          = (s, .error (.databaseNotFound name))) := by
  refine ⟨?_, ?_, ?_⟩
  · cases hlk : lookupAssoc s.available_databases name with
    | none => simp [Storage.database, hlk]
    | some stored =>
      by_cases h : stored = schemaName
      · simp [Storage.database, hlk, h]
      · simp [Storage.database, hlk, h, Ne.symm h]
  · intro stored hlk h
    simp [Storage.database, hlk, h]
  · intro hlk
    simp [Storage.database, hlk]

theorem C6_witness :
    ((Storage.database ⟨[], [("db", "sch")], [], [], []⟩ "db" "sch").2 = .ok ())
    ∧ Storage.database ⟨[], [("db", "sch")], [], [], []⟩ "db" "other"
      = (⟨[], [("db", "sch")], [], [], []⟩,
          .error (.schemaMismatch "db" "other" "sch"))
    ∧ Storage.database ⟨[], [("db", "sch")], [], [], []⟩ "nope" "sch"
      = (⟨[], [("db", "sch")], [], [], []⟩, .error (.databaseNotFound "nope")) :=
  ⟨(C6_database_open ⟨[], [("db", "sch")], [], [], []⟩ "db" "sch").1.mpr (by decide),
    (C6_database_open ⟨[], [("db", "sch")], [], [], []⟩ "db" "other").2.1 "sch"
      (by decide) (by decide),
    (C6_database_open ⟨[], [("db", "sch")], [], [], []⟩ "nope" "sch").2.2
      (by decide)⟩

/-- C7: the configuration id is used verbatim and never written; an
existing `server-id` file is authoritative and is parsed without being
rewritten; otherwise the random id is chosen and written once as ASCII
decimal. -/
theorem C7_lookup_or_create_id (id random_id n : Nat) (file : Option String)
    (content : String) (hparse : parseU64 content = some n) :
    lookup_or_create_id (some id) file random_id = some (id, file)
    ∧ lookup_or_create_id none (some content) random_id = some (n, some content)
    ∧ lookup_or_create_id none none random_id
        = some (random_id, some (Nat.repr random_id)) := by
  refine ⟨rfl, ?_, rfl⟩
  simp [lookup_or_create_id, hparse]

theorem C7_witness :
    lookup_or_create_id (some 7) (some "42") 9 = some (7, some "42")
    ∧ lookup_or_create_id none (some "42") 9 = some (42, some "42")
    ∧ lookup_or_create_id none none 9 = some (9, some "9") :=
  ⟨(C7_lookup_or_create_id 7 9 42 (some "42") "42" (by decide)).1,
    (C7_lookup_or_create_id 7 9 42 (some "42") "42" (by decide)).2.1,
    (C7_lookup_or_create_id 7 9 42 (some "42") "42" (by decide)).2.2⟩

/-- C8: `delete_database` fails with `DatabaseNotFound` exactly when no
admin record matches the lowercased name, yet by then it has already
removed the name from `available_databases` and `open_roots` and deleted
the on-disk directory; there are states where the error is returned and
the state was still mutated. -/
theorem C8_delete_database_mutates_before_check :
    (∀ (s : StorageState) (name : String),
      ((delete_database s name).2 = .error (.databaseNotFound name) ↔
          adminByName s.admin_databases (asciiLower name) = [])
      ∧ lookupAssoc (delete_database s name).1.available_databases name = none
      ∧ name ∉ (delete_database s name).1.open_roots
      ∧ name ∉ (delete_database s name).1.disk_dirs)
    ∧ ∃ (s : StorageState) (name : String),
        (delete_database s name).2 = .error (.databaseNotFound name)
        ∧ (delete_database s name).1 ≠ s := by
  constructor
  · intro s name
    have hdirs : name ∉
        (if name ∈ s.disk_dirs then s.disk_dirs.filter fun n => n != name
          else s.disk_dirs) := by
      by_cases hd : name ∈ s.disk_dirs
      · simp only [hd, if_true]
        exact not_mem_filter_bne_self s.disk_dirs name
      · simp [hd]
    cases hq : adminByName s.admin_databases (asciiLower name) with
    | nil =>
      refine ⟨by simp [delete_database, hq], ?_, ?_, ?_⟩
      · simp [delete_database, hq, lookupAssoc_removeAssoc_self]
      · simp only [delete_database, hq]
        exact not_mem_filter_bne_self s.open_roots name
      · simp only [delete_database, hq]
        exact hdirs
    | cons record rest =>
      refine ⟨by simp [delete_database, hq], ?_, ?_, ?_⟩
      · simp [delete_database, hq, lookupAssoc_removeAssoc_self]
      · simp only [delete_database, hq]
        exact not_mem_filter_bne_self s.open_roots name
      · simp only [delete_database, hq]
        exact hdirs
  · refine ⟨⟨[], [("db", "sch")], [], [], []⟩, "db", rfl, by decide⟩

/-- C10: the empty string passes `Storage::validate_name` (the
per-character check is vacuous), so an empty database name is never
rejected as `InvalidDatabaseName` by `create_database_with_schema`. -/
theorem C10_empty_name_passes_validation :
    validate_name "" = Except.ok ()
    ∧ ∀ (s : StorageState) (schema : String) (only_if_needed : Bool),
        (create_database_with_schema s "" schema only_if_needed).2
          ≠ Except.error (CoreError.invalidDatabaseName "") := by
  constructor
  · rfl
  · intro s schema only_if_needed
    have hv : validate_name "" = Except.ok () := rfl
    simp only [create_database_with_schema, hv]
    split
    · split
      · simp
      · split <;> simp
    · simp

/-- C5 (counterexample): a 65-byte name violates the specification's
name grammar (which includes the 64-byte limit), yet
`create_database_with_schema` creates the database instead of failing
with `InvalidName`. -/
theorem C5_counterexample_long_name_created :
    (create_database_with_schema ⟨["sch"], [], [], [], []⟩ sixtyFiveAs "sch"
        false).2 = Except.ok ()
    ∧ specClaimedNameOK sixtyFiveAs = false :=
  ⟨rfl, by decide⟩

/-! ## Compaction targets (tasks/compactor.rs)

`Target::compact` either compacts one named tree directly or fans out:
a `Collection` target gathers that collection's trees, a `Database`
target gathers every collection's trees and appends the key/value
target.  The tree-name helpers and the `Schematic` live outside `src/`
and are modelled from the spec's on-disk layout (§6). -/

/-- `CollectionName`: an `(authority, name)` pair. -/
structure CollectionName where
  authority : String
  name : String
deriving Repr, DecidableEq

/-- `ViewName`: a `(collection, name)` pair. -/
structure ViewName where
  collection : CollectionName
  name : String
deriving Repr, DecidableEq

/-- Modelled from the spec: a `Schematic` declares a database's
collections and views (`schema::Schematic` is not under `src/`). -/
structure Schematic where
  collections : List CollectionName
  views : List ViewName
deriving Repr, DecidableEq

/-- Modelled from the spec: `Schematic::views_in_collection` returns the
views defined over a collection, or `None` when it has none. -/
def Schematic.views_in_collection (s : Schematic) (c : CollectionName) :
    Option (List ViewName) :=
  match s.views.filter fun v => v.collection == c with
  | [] => none
  | vs => some vs

/-- Modelled from the spec: `c.<authority>.<collection>`, the versioned
document tree of a collection. -/
def document_tree_name (c : CollectionName) : String :=
  "c." ++ c.authority ++ "." ++ c.name

/-- Modelled from the spec: the view version-marker tree, one per
collection (the compactor derives it from the collection name). -/
def view_versions_tree_name (c : CollectionName) : String :=
  "v." ++ c.authority ++ "." ++ c.name ++ ".versions"

/-- Modelled from the spec: `v.<authority>.<view>.entries`. -/
def view_entries_tree_name (v : ViewName) : String :=
  "v." ++ v.collection.authority ++ "." ++ v.name ++ ".entries"

/-- Modelled from the spec: `v.<authority>.<view>.docmap`. -/
def view_document_map_tree_name (v : ViewName) : String :=
  "v." ++ v.collection.authority ++ "." ++ v.name ++ ".docmap"

/-- Modelled from the spec: `v.<authority>.<view>.invalidated`. -/
def view_invalidated_docs_tree_name (v : ViewName) : String :=
  "v." ++ v.collection.authority ++ "." ++ v.name ++ ".invalidated"

/-- Modelled from the spec: `kv`, the key/value namespace tree
(`database::keyvalue::KEY_TREE`). -/
def KEY_TREE : String := "kv"

/-- `compactor.rs`, enum `Target`. -/
inductive Target where
  | versionedTree (name : String)
  | unversionedTree (name : String)
  | collection (collection : CollectionName)
  | keyValue
  | database
deriving Repr, DecidableEq

/-- `gather_collection_trees`: pushes the collection's document tree and
view-versions tree, then the entries, document-map and
invalidated-documents trees of every view over the collection. -/
def gather_collection_trees (schema : Schematic) (collection : CollectionName) :
    List Target :=
  [Target.versionedTree (document_tree_name collection),
    Target.unversionedTree (view_versions_tree_name collection)]
  ++ (match schema.views_in_collection collection with
      | some views =>
        views.flatMap fun v =>
          [Target.unversionedTree (view_entries_tree_name v),
            Target.unversionedTree (view_document_map_tree_name v),
            Target.unversionedTree (view_invalidated_docs_tree_name v)]
      | none => [])

/-- A tree that actually gets compacted: its kind (versioned or not) and
its name. -/
structure TreeRef where
  versioned : Bool
  name : String
deriving Repr, DecidableEq

/-- The trees compacted by a list of fanned-out leaf targets (the lists
built by `Target::compact` contain only single-tree and `KeyValue`
targets). -/
def leafTrees : List Target → List TreeRef
  | [] => []
  | Target.versionedTree n :: rest => ⟨true, n⟩ :: leafTrees rest
  | Target.unversionedTree n :: rest => ⟨false, n⟩ :: leafTrees rest
  | Target.keyValue :: rest => ⟨false, KEY_TREE⟩ :: leafTrees rest
  | Target.collection _ :: rest => leafTrees rest
  | Target.database :: rest => leafTrees rest

/-- The set of trees `Target::compact` rewrites: a single-tree target
compacts that tree, `KeyValue` compacts `KEY_TREE`, `Collection` fans
out over `gather_collection_trees`, and `Database` fans out over every
collection of the schema and appends the `KeyValue` target. -/
def compactedTrees (schema : Schematic) : Target → List TreeRef
  | .versionedTree n => [⟨true, n⟩]
  | .unversionedTree n => [⟨false, n⟩]
  | .keyValue => [⟨false, KEY_TREE⟩]
  | .collection c => leafTrees (gather_collection_trees schema c)
  | .database =>
    leafTrees
      ((schema.collections.flatMap fun c => gather_collection_trees schema c)
        ++ [Target.keyValue])

/-- The per-collection tree set in the claim's words: the collection's
document tree, its view-versions tree, and each of its views' entries,
document-map and invalidated-documents trees. -/
def collectionTreeSet (schema : Schematic) (c : CollectionName) : List TreeRef :=
  ⟨true, document_tree_name c⟩ :: ⟨false, view_versions_tree_name c⟩ ::
    ((schema.views_in_collection c).getD []).flatMap fun v =>
      [⟨false, view_entries_tree_name v⟩,
        ⟨false, view_document_map_tree_name v⟩,
        ⟨false, view_invalidated_docs_tree_name v⟩]

/-- The tree set the claim says a `Collection` target compacts: the
per-collection set *plus the key/value tree*. -/
def claimedCollectionTrees (schema : Schematic) (c : CollectionName) :
    List TreeRef :=
  collectionTreeSet schema c ++ [⟨false, KEY_TREE⟩]

theorem leafTrees_append (a b : List Target) :
    leafTrees (a ++ b) = leafTrees a ++ leafTrees b := by
  induction a with
  | nil => rfl
  | cons t rest ih => cases t <;> simp [leafTrees, ih]

theorem leafTrees_view_triples (views : List ViewName) :
    leafTrees (views.flatMap fun v =>
        [Target.unversionedTree (view_entries_tree_name v),
          Target.unversionedTree (view_document_map_tree_name v),
          Target.unversionedTree (view_invalidated_docs_tree_name v)])
      = views.flatMap fun v =>
        [⟨false, view_entries_tree_name v⟩,
          ⟨false, view_document_map_tree_name v⟩,
          ⟨false, view_invalidated_docs_tree_name v⟩] := by
  induction views with
  | nil => rfl
  | cons v rest ih =>
    rw [List.flatMap_cons, List.flatMap_cons, leafTrees_append, ih]
    rfl

theorem leafTrees_gather (schema : Schematic) (c : CollectionName) :
    leafTrees (gather_collection_trees schema c) = collectionTreeSet schema c := by
  unfold gather_collection_trees collectionTreeSet
  rw [leafTrees_append]
  cases hv : schema.views_in_collection c with
  | none => simp [leafTrees]
  | some views => simp [leafTrees, leafTrees_view_triples]

theorem leafTrees_flatMap_gather (schema : Schematic) (cs : List CollectionName) :
    leafTrees (cs.flatMap fun c => gather_collection_trees schema c)
      = cs.flatMap fun c => collectionTreeSet schema c := by
  induction cs with
  | nil => rfl
  | cons c rest ih =>
    simp [List.flatMap_cons, leafTrees_append, leafTrees_gather, ih]

/-- C3 (counterexample): for a schema with one collection and no views,
the `Collection` compaction target compacts only the document tree and
the view-versions tree — the key/value tree, which the claim includes,
is not compacted (only the `Database` target adds it). -/
theorem C3_counterexample_collection_excludes_kv :
    compactedTrees ⟨[⟨"auth", "coll"⟩], []⟩ (Target.collection ⟨"auth", "coll"⟩)
      = [⟨true, "c.auth.coll"⟩, ⟨false, "v.auth.coll.versions"⟩]
    ∧ (⟨false, KEY_TREE⟩ : TreeRef) ∈
        claimedCollectionTrees ⟨[⟨"auth", "coll"⟩], []⟩ ⟨"auth", "coll"⟩
    ∧ (⟨false, KEY_TREE⟩ : TreeRef) ∉
        compactedTrees ⟨[⟨"auth", "coll"⟩], []⟩
          (Target.collection ⟨"auth", "coll"⟩) :=
  ⟨rfl, by decide, by decide⟩

/-- C3 (amended): a `Collection` target compacts exactly the
collection's document tree, its view-versions tree and the three trees
of each of its views — the key/value tree is *not* included; a
`Database` target compacts that set for every collection of the schema
plus the key/value tree. -/
theorem C3_compaction_tree_sets (schema : Schematic) (c : CollectionName) :
    compactedTrees schema (Target.collection c) = collectionTreeSet schema c
    ∧ compactedTrees schema Target.database
        = (schema.collections.flatMap fun c' => collectionTreeSet schema c')
          ++ [⟨false, KEY_TREE⟩] := by
  constructor
  · exact leafTrees_gather schema c
  · show leafTrees _ = _
    rw [leafTrees_append, leafTrees_flatMap_gather]
    rfl

/-! ## Transactions (transaction.rs) and the transaction engine

The data model below is embedded from `transaction.rs`.  The engine
that applies a transaction lives in `bonsaidb-local`'s database module,
which is not under `src/`; it is modelled from the spec (§4.2–§4.3):
pre-validate and stage every operation on a working copy of the state,
then commit the staged state atomically, or discard it and return the
first error. -/

/-- Modelled from the spec: a document revision — `count` increments per
update, `sha256` is the hash of the contents (`document::Revision` is
not under `src/`). -/
structure Revision where
  count : Nat
  sha256 : List Nat
deriving Repr, DecidableEq

/-- Modelled from the spec: a document header — id plus revision
(`document::Header` is not under `src/`). -/
structure Header where
  id : Nat
  revision : Revision
deriving Repr, DecidableEq

/-- `transaction.rs`, enum `Command`. -/
inductive Command where
  | insert (id : Option Nat) (contents : List Nat)
  | update (header : Header) (contents : List Nat)
  | delete (header : Header)
deriving Repr, DecidableEq

/-- `transaction.rs`, struct `Operation`: a command on a collection. -/
structure Operation where
  collection : CollectionName
  command : Command
deriving Repr, DecidableEq

/-- `transaction.rs`, struct `Transaction`: a list of operations to
execute as a single unit. -/
structure Transaction where
  operations : List Operation
deriving Repr, DecidableEq

/-- `Transaction::insert`: a single-insert transaction. -/
def Transaction.insert (collection : CollectionName) (id : Option Nat)
    (contents : List Nat) : Transaction :=
  ⟨[⟨collection, .insert id contents⟩]⟩

/-- `Transaction::update`: a single-update transaction. -/
def Transaction.update (collection : CollectionName) (header : Header)
    (contents : List Nat) : Transaction :=
  ⟨[⟨collection, .update header contents⟩]⟩

/-- `Transaction::delete`: a single-delete transaction. -/
def Transaction.delete (collection : CollectionName) (header : Header) :
    Transaction :=
  ⟨[⟨collection, .delete header⟩]⟩

/-- `transaction.rs`, enum `OperationResult`. -/
inductive OperationResult where
  | success
  | documentUpdated (collection : CollectionName) (header : Header)
  | documentDeleted (collection : CollectionName) (id : Nat)
deriving Repr, DecidableEq

/-- The operation-failure kinds the spec names for transactions:
revision/id conflict, missing document, codec failure. -/
inductive TxError where
  | conflict (collection : CollectionName) (id : Nat)
  | notFound (collection : CollectionName) (id : Nat)
  | serialization
deriving Repr, DecidableEq

/-- A collection's document tree: document id → (revision, contents). -/
abbrev CollectionDocs := List (Nat × (Revision × List Nat))

/-- The database state: one document tree per collection. -/
abbrev DbState := List (CollectionName × CollectionDocs)

/-- The largest document id present in a collection (0 when empty). -/
def maxDocId (docs : CollectionDocs) : Nat :=
  docs.foldl (fun acc d => max acc d.1) 0

/-- Modelled from the spec (§4.2): one command against a collection's
document tree.  Insert allocates `max + 1` when no id is given and
conflicts on a taken id; update and delete require the stored revision
to equal the presented header's revision (else conflict) and the
document to exist (else not-found). -/
def applyCommand (hash : List Nat → List Nat) (collection : CollectionName)
    (docs : CollectionDocs) :
    Command → Except TxError (CollectionDocs × OperationResult)
  | .insert id contents =>
    let newId :=
      match id with
      | some i => i
      | none => maxDocId docs + 1
    match lookupAssoc docs newId with
    | some _ => .error (.conflict collection newId)
    | none =>
      let revision : Revision := ⟨1, hash contents⟩
      .ok (docs ++ [(newId, (revision, contents))],
        .documentUpdated collection ⟨newId, revision⟩)
  | .update header contents =>
    match lookupAssoc docs header.id with
    | none => .error (.notFound collection header.id)
    | some (stored, _) =>
      if stored = header.revision then
        let revision : Revision := ⟨stored.count + 1, hash contents⟩
        .ok (insertAssoc docs header.id (revision, contents),
          .documentUpdated collection ⟨header.id, revision⟩)
      else
        .error (.conflict collection header.id)
  | .delete header =>
    match lookupAssoc docs header.id with
    | none => .error (.notFound collection header.id)
    | some (stored, _) =>
      if stored = header.revision then
        .ok (removeAssoc docs header.id, .documentDeleted collection header.id)
      else
        .error (.conflict collection header.id)

/-- Modelled from the spec: one operation against the staged database
state. -/
def applyOperation (hash : List Nat → List Nat) (s : DbState) (op : Operation) :
    Except TxError (DbState × OperationResult) :=
  match applyCommand hash op.collection ((lookupAssoc s op.collection).getD [])
      op.command with
  | .error e => .error e
  | .ok (docs2, result) => .ok (insertAssoc s op.collection docs2, result)

/-- Modelled from the spec: stage every operation in order on a working
copy, short-circuiting on the first failure. -/
def applyOperations (hash : List Nat → List Nat) (s : DbState) :
    List Operation → Except TxError (DbState × List OperationResult)
  | [] => .ok (s, [])
  | op :: rest =>
    match applyOperation hash s op with
    | .error e => .error e
    | .ok (s2, result) =>
      match applyOperations hash s2 rest with
      | .error e => .error e
      | .ok (s3, results) => .ok (s3, result :: results)

/-- Modelled from the spec (§4.3): `apply_transaction` — stage all
operations, then either commit the staged state with one result per
operation, or discard the stages and surface the error. -/
def apply_transaction (hash : List Nat → List Nat) (s : DbState)
    (t : Transaction) : DbState × Except TxError (List OperationResult) :=
  match applyOperations hash s t.operations with
  | .ok (s2, results) => (s2, .ok results)
  | .error e => (s, .error e)

theorem applyOperations_length (hash : List Nat → List Nat)
    (ops : List Operation) (s s2 : DbState) (results : List OperationResult)
    (h : applyOperations hash s ops = .ok (s2, results)) :
    results.length = ops.length := by
  induction ops generalizing s s2 results with
  | nil =>
    simp only [applyOperations, Except.ok.injEq, Prod.mk.injEq] at h
    simp [← h.2]
  | cons op rest ih =>
    rw [applyOperations] at h
    cases happ : applyOperation hash s op with
    | error e =>
      rw [happ] at h
      cases h
    | ok pr =>
      obtain ⟨s1, r⟩ := pr
      rw [happ] at h
      dsimp only at h
      cases hrest : applyOperations hash s1 rest with
      | error e =>
        rw [hrest] at h
        cases h
      | ok pr2 =>
        obtain ⟨s3, rs⟩ := pr2
        rw [hrest] at h
        simp only [Except.ok.injEq, Prod.mk.injEq] at h
        rw [← h.2]
        simp [ih s1 s3 rs hrest]

/-- C4 (spec-modelled): `apply_transaction` is all-or-nothing — when any
operation fails, the returned state is exactly the input state and an
error is surfaced instead of a result list; on success there is one
result per operation. -/
theorem C4_apply_transaction_all_or_nothing (hash : List Nat → List Nat)
    (s : DbState) (t : Transaction) :
    (∀ e, (apply_transaction hash s t).2 = .error e →
        (apply_transaction hash s t).1 = s)
    ∧ (∀ results, (apply_transaction hash s t).2 = .ok results →
        results.length = t.operations.length) := by
  constructor
  · intro e he
    cases hops : applyOperations hash s t.operations with
    | ok pr =>
      obtain ⟨s2, rs⟩ := pr
      simp [apply_transaction, hops] at he
    | error e2 =>
      simp [apply_transaction, hops]
  · intro results hr
    cases hops : applyOperations hash s t.operations with
    | ok pr =>
      obtain ⟨s2, rs⟩ := pr
      simp only [apply_transaction, hops, Except.ok.injEq] at hr
      rw [← hr]
      exact applyOperations_length hash t.operations s s2 rs hops
    | error e2 =>
      simp [apply_transaction, hops] at hr

theorem C4_witness :
    (apply_transaction (fun l => l) []
        (Transaction.update ⟨"a", "b"⟩ ⟨5, ⟨1, []⟩⟩ [])).1 = []
    ∧ ([OperationResult.documentUpdated ⟨"a", "b"⟩ ⟨1, ⟨1, []⟩⟩] :
          List OperationResult).length
        = (Transaction.insert ⟨"a", "b"⟩ none []).operations.length :=
  ⟨(C4_apply_transaction_all_or_nothing (fun l => l) []
        (Transaction.update ⟨"a", "b"⟩ ⟨5, ⟨1, []⟩⟩ [])).1
      (.notFound ⟨"a", "b"⟩ 5) rfl,
    (C4_apply_transaction_all_or_nothing (fun l => l) []
        (Transaction.insert ⟨"a", "b"⟩ none [])).2
      [OperationResult.documentUpdated ⟨"a", "b"⟩ ⟨1, ⟨1, []⟩⟩] rfl⟩

/-! ## Provided `Connection` methods (connection.rs) -/

/-- Outcome of a provided `Connection` method: a returned value, a
surfaced error, or a panic (`unreachable!` or out-of-bounds indexing). -/
inductive MethodOutcome (α : Type) where
  | ok (value : α)
  | err (e : TxError)
  | panic
deriving Repr, DecidableEq

/-- `Connection::insert` after `apply_transaction` has returned:
`&results[0]` panics on an empty list; a first `DocumentUpdated` yields
its header (cloned); every other first result hits `unreachable!`. -/
def connection_insert (applyResult : Except TxError (List OperationResult)) :
    MethodOutcome Header :=
  match applyResult with
  | .error e => .err e
  | .ok results =>
    match results with
    | [] => .panic
    | r :: _ =>
      match r with
      | .documentUpdated _ header => .ok header
      | _ => .panic

/-- `Connection::update` after `apply_transaction` has returned: takes
`results.into_iter().next()`; a first `DocumentUpdated` stores its
header into the caller's document (returned here); anything else hits
`unreachable!`. -/
def connection_update (applyResult : Except TxError (List OperationResult)) :
    MethodOutcome Header :=
  match applyResult with
  | .error e => .err e
  | .ok results =>
    match results.head? with
    | some (.documentUpdated _ header) => .ok header
    | _ => .panic

/-- `Connection::delete` after `apply_transaction` has returned:
`&results[0]` panics on an empty list; a first `DocumentDeleted` returns
`()`; every other first result hits `unreachable!`. -/
def connection_delete (applyResult : Except TxError (List OperationResult)) :
    MethodOutcome Unit :=
  match applyResult with
  | .error e => .err e
  | .ok results =>
    match results with
    | [] => .panic
    | r :: _ =>
      match r with
      | .documentDeleted _ _ => .ok ()
      | _ => .panic

/-- C9: whenever `apply_transaction`'s successful result list is
non-empty and starts with `DocumentUpdated` (for insert/update) or
`DocumentDeleted` (for delete), the provided methods never reach their
`unreachable!`/out-of-bounds branches: insert returns exactly the first
`DocumentUpdated` header, update overwrites the caller's header with
it, delete returns `()`; errors pass through. -/
theorem C9_connection_methods_no_panic (c : CollectionName) (h : Header)
    (i : Nat) (tail : List OperationResult) (e : TxError) :
    connection_insert (.ok (OperationResult.documentUpdated c h :: tail))
        = .ok h
    ∧ connection_update (.ok (OperationResult.documentUpdated c h :: tail))
        = .ok h
    ∧ connection_delete (.ok (OperationResult.documentDeleted c i :: tail))
        = .ok ()
    ∧ connection_insert (.error e) = .err e
    ∧ connection_update (.error e) = .err e
    ∧ connection_delete (.error e) = .err e :=
  ⟨rfl, rfl, rfl, rfl, rfl, rfl⟩

end BonsaiDb
